import Mathlib

/-!
Verification development for the OpenAI streaming conversation core:
the stream-event reducer (`processResponsesApiEvent`), the throttled
incremental emitters (`TextEmitter`, `ReasoningEmitter`), the parallel
tool-call executor (`executeToolCallsInParallel`), and the multi-turn
conversation loop (`runConversationLoop`).

JavaScript values are embedded as follows: strings are `String` with the
JS truthiness convention that the empty string is falsy; optional fields
are `Option`; JSON payloads (the `any`-typed fields `usage`, tool results,
parsed arguments) are a `Json` value type; the JS builtins `JSON.parse`
is threaded as an oracle parameter `String → Option Json` (returning
`none` exactly when the builtin would throw) and `JSON.stringify` is the
function `jsonStringify` below. Mutation of the accumulator becomes
explicit state passing; `async`/`Promise` code that can reject becomes
`Except String`.
-/

/-- Json models a parsed JavaScript JSON value (the `any`-typed payloads of
the source: usage objects, tool arguments, tool results). -/
inductive Json where
  | null : Json
  | bool (b : Bool) : Json
  | num (n : Int) : Json
  | str (s : String) : Json
  | arr (elems : List Json) : Json
  | obj (fields : List (String × Json)) : Json

/-- OutputItem models the fields of a Responses API output item that the
reducer reads (`item.type`, `item.id`, `item.call_id`, `item.name`); a JS
`undefined` string field is embedded as the (falsy) empty string. -/
structure OutputItem where
  type : String
  id : String
  call_id : String
  name : String
deriving DecidableEq

/-- FunctionSpec is the `function` field of a tool call
(src/src/OpenAIStream/service/README.md, interface ToolCall). -/
structure FunctionSpec where
  name : String
  arguments : String
deriving DecidableEq

/-- ToolCall mirrors `interface ToolCall` of mcp/toolExecution: `id` is the
provider call id (`call_id`), `itemId` the streaming item id. -/
structure ToolCall where
  id : String
  itemId : String
  type : String
  function : FunctionSpec
deriving DecidableEq

/-- StreamState mirrors `interface StreamState` of streamProcessor.ts. -/
structure StreamState where
  fullText : String
  iterationText : String
  reasoning : String
  toolCalls : List ToolCall
  outputItems : List OutputItem
  responseId : Option String
  usage : Json
  finishReason : Option String

/-- RespEvent is the closed taxonomy of Responses API event chunks handled
by the `switch` of `processResponsesApiEvent` (responsesApiHandler.ts).
Constructors carry exactly the payload fields the handler reads; case
labels that share a no-op arm are grouped into one constructor carrying
the label string, and `unknown` is the `default:` arm. -/
inductive RespEvent where
  | outputTextDelta (delta : String)
  | outputTextDone
  | reasoningSummaryTextDelta (delta : String)
  | reasoningSummaryTextDone
  | reasoningTextDelta (delta : String)
  | reasoningTextDone
  | outputItemAdded (item : Option OutputItem)
  | functionCallArgumentsDelta (itemId : String) (delta : String)
  | functionCallArgumentsDone (itemId : String) (name : String) (arguments : String)
  | responseCreated (responseId : String)
  | responseInProgress
  | responseQueued
  | responseCompleted (usage : Option Json) (responseId : String)
  | responseFailed
  | responseIncomplete (reason : String)
  | outputItemDone (item : Option OutputItem)
  | contentPartEvent (label : String)
  | refusalDelta (delta : String)
  | refusalDone (refusal : String)
  | mcpCallEvent (label : String)
  | otherToolEvent (label : String)
  | annotationAdded
  | customToolCallInput (label : String)
  | errorEvent
  | unknown (ty : String)

/-- jsFalsy embeds JS truthiness of a nullable string: `null`/`undefined`
and the empty string are falsy. -/
def jsFalsy (o : Option String) : Bool :=
  match o with
  | none => true
  | some s => s = ""

/-- updateFirstToolCall embeds the JS idiom
`const c = list.find(tc => tc.itemId === itemId); if (c) mutate(c);`:
the first element whose `itemId` matches is replaced by `f` applied to it,
everything else is unchanged; no match means no change. -/
def updateFirstToolCall (itemId : String) (f : ToolCall → ToolCall) :
    List ToolCall → List ToolCall
  | [] => []
  | tc :: rest =>
      if tc.itemId = itemId then f tc :: rest
      else tc :: updateFirstToolCall itemId f rest

/-- processResponsesApiEvent is the stream-event reducer translated
case-for-case from responsesApiHandler.ts (logging omitted). -/
def processResponsesApiEvent (chunk : RespEvent) (state : StreamState) : StreamState :=
  match chunk with
  | .outputTextDelta delta =>
      if delta ≠ "" then
        { state with
            iterationText := state.iterationText ++ delta
            fullText := state.fullText ++ delta }
      else state
  | .outputTextDone => state
  | .reasoningSummaryTextDelta delta =>
      if delta ≠ "" then { state with reasoning := state.reasoning ++ delta }
      else state
  | .reasoningSummaryTextDone => state
  | .reasoningTextDelta _ => state
  | .reasoningTextDone => state
  | .outputItemAdded item =>
      match item with
      | some it =>
          if it.type = "function_call" then
            { state with
                toolCalls := state.toolCalls ++
                  [{ id := it.call_id
                     itemId := it.id
                     type := "function"
                     function := { name := it.name, arguments := "" } }] }
          else state
      | none => state
  | .functionCallArgumentsDelta itemId delta =>
      if delta ≠ "" ∧ itemId ≠ "" then
        { state with
            toolCalls := updateFirstToolCall itemId
              (fun tc => { tc with function :=
                { tc.function with arguments := tc.function.arguments ++ delta } })
              state.toolCalls }
      else state
  | .functionCallArgumentsDone itemId nm args =>
      if itemId ≠ "" then
        { state with
            toolCalls := updateFirstToolCall itemId
              (fun tc => { tc with function :=
                { name := if nm ≠ "" then nm else tc.function.name
                  arguments := args } })
              state.toolCalls }
      else state
  | .responseCreated rid =>
      if rid ≠ "" then { state with responseId := some rid }
      else state
  | .responseInProgress => state
  | .responseQueued => state
  | .responseCompleted usage rid =>
      let st1 := { state with finishReason := some "completed" }
      let st2 :=
        match usage with
        | some u => { st1 with usage := u }
        | none => st1
      if rid ≠ "" ∧ jsFalsy st2.responseId then { st2 with responseId := some rid }
      else st2
  | .responseFailed => { state with finishReason := some "error" }
  | .responseIncomplete reason =>
      { state with finishReason := some (if reason ≠ "" then reason else "incomplete") }
  | .outputItemDone item =>
      match item with
      | some it => { state with outputItems := state.outputItems ++ [it] }
      | none => state
  | .contentPartEvent _ => state
  | .refusalDelta delta =>
      if delta ≠ "" then
        { state with fullText := state.fullText ++ "[REFUSAL: " ++ delta ++ "]" }
      else state
  | .refusalDone refusal =>
      if refusal ≠ "" then
        { state with
            fullText := state.fullText ++ "[REFUSAL: " ++ refusal ++ "]"
            finishReason := some "refused" }
      else state
  | .mcpCallEvent _ => state
  | .otherToolEvent _ => state
  | .annotationAdded => state
  | .customToolCallInput _ => state
  | .errorEvent => { state with finishReason := some "error" }
  | .unknown _ => state

/-- RespEvent.ty recovers the `chunk.type` discriminator string of each
event constructor (grouped constructors carry their label directly). -/
def RespEvent.ty : RespEvent → String
  | .outputTextDelta _ => "response.output_text.delta"
  | .outputTextDone => "response.output_text.done"
  | .reasoningSummaryTextDelta _ => "response.reasoning_summary_text.delta"
  | .reasoningSummaryTextDone => "response.reasoning_summary_text.done"
  | .reasoningTextDelta _ => "response.reasoning_text.delta"
  | .reasoningTextDone => "response.reasoning_text.done"
  | .outputItemAdded _ => "response.output_item.added"
  | .functionCallArgumentsDelta _ _ => "response.function_call_arguments.delta"
  | .functionCallArgumentsDone _ _ _ => "response.function_call_arguments.done"
  | .responseCreated _ => "response.created"
  | .responseInProgress => "response.in_progress"
  | .responseQueued => "response.queued"
  | .responseCompleted _ _ => "response.completed"
  | .responseFailed => "response.failed"
  | .responseIncomplete _ => "response.incomplete"
  | .outputItemDone _ => "response.output_item.done"
  | .contentPartEvent label => label
  | .refusalDelta _ => "response.refusal.delta"
  | .refusalDone _ => "response.refusal.done"
  | .mcpCallEvent label => label
  | .otherToolEvent label => label
  | .annotationAdded => "response.output_text.annotation.added"
  | .customToolCallInput label => label
  | .errorEvent => "error"
  | .unknown t => t

/-- processStreamChunk translates streamProcessor.ts: dispatch to the
Responses API handler when the chunk carries a (truthy) `type`, otherwise
return the state unchanged. -/
def processStreamChunk (chunk : RespEvent) (state : StreamState) : StreamState :=
  if chunk.ty ≠ "" then processResponsesApiEvent chunk state else state

/-- initializeStreamState translates streamProcessor.ts: fresh per-iteration
state keeping accumulated text, reasoning and usage. -/
def initializeStreamState (previousFullText previousReasoning : String)
    (previousUsage : Json) : StreamState :=
  { fullText := previousFullText
    iterationText := ""
    reasoning := previousReasoning
    toolCalls := []
    outputItems := []
    responseId := none
    usage := previousUsage
    finishReason := none }

/-- EmitterState is the mutable state of a TextEmitter or ReasoningEmitter
instance: the count of characters accumulated since the last flush. -/
structure EmitterState where
  charsSinceLastEmit : Nat
deriving DecidableEq

/-- TEXT_EMIT_INTERVAL is the `EMIT_INTERVAL` constant of textEmitter.ts. -/
def TEXT_EMIT_INTERVAL : Nat := 300

/-- REASONING_EMIT_INTERVAL is the `EMIT_INTERVAL` constant of
reasoningEmitter.ts. -/
def REASONING_EMIT_INTERVAL : Nat := 150

/-- TextEmitter.emitIfNeeded translates textEmitter.ts: add the new
character count; once the counter reaches the interval, emit the full
accumulated text (the `chunk` payload, returned as `some`) and reset the
counter to zero. -/
def TextEmitter.emitIfNeeded (st : EmitterState) (fullText : String)
    (newCharsCount : Nat) : EmitterState × Option String :=
  let c := st.charsSinceLastEmit + newCharsCount
  if c ≥ TEXT_EMIT_INTERVAL then ({ charsSinceLastEmit := 0 }, some fullText)
  else ({ charsSinceLastEmit := c }, none)

/-- TextEmitter.emitFinal translates textEmitter.ts: flush the accumulated
text exactly when the counter is non-zero, then reset the counter. -/
def TextEmitter.emitFinal (st : EmitterState) (fullText : String) :
    EmitterState × Option String :=
  if st.charsSinceLastEmit > 0 then ({ charsSinceLastEmit := 0 }, some fullText)
  else (st, none)

/-- ReasoningEmitter.emitIfNeeded translates reasoningEmitter.ts (same
policy as the text emitter with the 150-character interval; the emission
carries the `reasoning` payload). -/
def ReasoningEmitter.emitIfNeeded (st : EmitterState) (fullReasoning : String)
    (newCharsCount : Nat) : EmitterState × Option String :=
  let c := st.charsSinceLastEmit + newCharsCount
  if c ≥ REASONING_EMIT_INTERVAL then ({ charsSinceLastEmit := 0 }, some fullReasoning)
  else ({ charsSinceLastEmit := c }, none)

/-- ReasoningEmitter.emitFinal translates reasoningEmitter.ts: flush when
the counter is non-zero AND the accumulated reasoning is truthy
(non-empty), then reset the counter. -/
def ReasoningEmitter.emitFinal (st : EmitterState) (fullReasoning : String) :
    EmitterState × Option String :=
  if st.charsSinceLastEmit > 0 ∧ fullReasoning ≠ "" then
    ({ charsSinceLastEmit := 0 }, some fullReasoning)
  else (st, none)

/-- hexDigit is the lowercase hexadecimal digit for a value below 16, used
by the JSON string escaper. -/
def hexDigit (n : Nat) : Char :=
  if n < 10 then Char.ofNat (48 + n) else Char.ofNat (87 + n)

/-- escapeJsonChar embeds the per-character escaping of the JS builtin
`JSON.stringify` on strings. -/
def escapeJsonChar (c : Char) : String :=
  if c = '"' then "\\\""
  else if c = '\\' then "\\\\"
  else if c = '\n' then "\\n"
  else if c = '\r' then "\\r"
  else if c = '\t' then "\\t"
  else if c = '\x08' then "\\b"
  else if c = '\x0c' then "\\f"
  else if c.toNat < 32 then
    "\\u00" ++ String.mk [hexDigit (c.toNat / 16), hexDigit (c.toNat % 16)]
  else String.mk [c]

/-- escapeJsonString escapes every character of a string for JSON output. -/
def escapeJsonString (s : String) : String :=
  String.join (s.data.map escapeJsonChar)

mutual

/-- jsonStringify embeds the JS builtin `JSON.stringify` on the `Json`
value type (no indentation, as at the call sites of toolExecution). -/
def jsonStringify : Json → String
  | .null => "null"
  | .bool b => if b then "true" else "false"
  | .num n => toString n
  | .str s => "\"" ++ escapeJsonString s ++ "\""
  | .arr xs => "[" ++ String.intercalate "," (jsonStringifyList xs) ++ "]"
  | .obj fs => "\x7b" ++ String.intercalate "," (jsonStringifyFields fs) ++ "\x7d"

/-- jsonStringifyList serializes each array element. -/
def jsonStringifyList : List Json → List String
  | [] => []
  | x :: xs => jsonStringify x :: jsonStringifyList xs

/-- jsonStringifyFields serializes each `"key":value` member of an object. -/
def jsonStringifyFields : List (String × Json) → List String
  | [] => []
  | (k, v) :: fs =>
      ("\"" ++ escapeJsonString k ++ "\":" ++ jsonStringify v) :: jsonStringifyFields fs

end

/-- ToolResult mirrors `interface ToolResult` of mcp/toolExecution. -/
structure ToolResult where
  tool_call_id : String
  role : String
  content : String
deriving DecidableEq

/-- McpService is the capability registry `Record<string, (input) =>
Promise<any>>`: a lookup from tool name to an invocation function; the
function returns `Except.error msg` when the promise rejects with message
`msg`. -/
def McpService : Type := String → Option (Json → Except String Json)

/-- executeToolCall translates `executeToolCall` of mcp/toolExecution
(src/src/OpenAIStream/service/README.md lines 405-503; logging and the
fire-and-forget `saveMCPTrace` telemetry, which never affect the returned
result, are omitted). `parseJson` is the `JSON.parse` oracle: the
arguments parse is wrapped in its own try/catch and degrades to the empty
object; the try around the service call converts a rejection into a
`\x7b error \x7d` JSON result. -/
def executeToolCall (parseJson : String → Option Json) (mcpService : McpService)
    (toolCall : ToolCall) : ToolResult :=
  let toolArgs := (parseJson toolCall.function.arguments).getD (Json.obj [])
  match mcpService toolCall.function.name with
  | some f =>
      match f toolArgs with
      | .ok toolResult =>
          { tool_call_id := toolCall.id, role := "tool"
            content := jsonStringify toolResult }
      | .error msg =>
          { tool_call_id := toolCall.id, role := "tool"
            content := jsonStringify (Json.obj [("error", Json.str msg)]) }
  | none =>
      { tool_call_id := toolCall.id, role := "tool"
        content := jsonStringify (Json.obj [("error", Json.str "Tool not found")]) }

/-- executeToolCallsInParallel translates `executeToolCallsInParallel` of
mcp/toolExecution: every call is dispatched (`toolCalls.map(...)`) and the
results are joined positionally (`Promise.all`), so the result at index i
corresponds to `toolCalls[i]` regardless of completion order, and the
joined computation never rejects because each `executeToolCall` catches
its own failures (it is a total function here). -/
def executeToolCallsInParallel (parseJson : String → Option Json)
    (mcpService : McpService) (toolCalls : List ToolCall) : List ToolResult :=
  toolCalls.map (executeToolCall parseJson mcpService)

/-- DATA_TOOLS is the constant of toolHandler.ts: tools that return data
for the LLM and do not end the conversation. -/
def DATA_TOOLS : List String := ["searchKnowledgeBase", "getChunksByQuery", "getActiveMCPs"]

/-- hasWorkflowMCP translates toolHandler.ts: some call names a tool
outside DATA_TOOLS. -/
def hasWorkflowMCP (toolCalls : List ToolCall) : Bool :=
  toolCalls.any (fun tc => !(DATA_TOOLS.contains tc.function.name))

/-- ParsedResult models the untyped return of `parseToolResult`: the
parsed JSON value, or the raw content string when `JSON.parse` throws. -/
inductive ParsedResult where
  | json (j : Json)
  | raw (s : String)

/-- parseToolResult translates toolHandler.ts: `JSON.parse(content || "\x7b\x7d")`
inside try/catch, the catch returning the content unparsed. -/
def parseToolResult (parseJson : String → Option Json) (content : String) : ParsedResult :=
  match parseJson (if content = "" then "\x7b\x7d" else content) with
  | some j => .json j
  | none => .raw content

/-- MCPResult mirrors the per-call record of conversation/types.ts emitted
through the dedicated MCP output connector. -/
structure MCPResult where
  name : String
  arguments : Json
  result : ParsedResult

/-- ResponseInputItem mirrors the transcript item union of
conversation/types.ts. -/
inductive ResponseInputItem where
  | message (role : String) (content : String)
  | functionCall (id : String) (function : FunctionSpec)
  | functionCallOutput (call_id : String) (output : String)

/-- ToolHandlerResult mirrors `interface ToolHandlerResult` of
toolHandler.ts. -/
structure ToolHandlerResult where
  shouldEndConversation : Bool
  mcpResults : List MCPResult
  toolOutputs : List ResponseInputItem

/-- buildMcpResults embeds the `streamState.toolCalls.map((toolCall,
index) => ...)` of toolHandler.ts building the MCPResult list. The
`JSON.parse(toolCall.function.arguments)` there (toolHandler.ts line 57)
is NOT wrapped in try/catch, so a malformed arguments string makes the
whole map throw: that is the `Except.error` case. `toolResults[index]?.content`
is read with optional chaining, an out-of-range index degrading to the
falsy empty string before the `content || "\x7b\x7d"` of parseToolResult. -/
def buildMcpResults (parseJson : String → Option Json) (toolResults : List ToolResult) :
    List ToolCall → Nat → Except String (List MCPResult)
  | [], _ => .ok []
  | tc :: rest, idx =>
      match parseJson tc.function.arguments with
      | none => .error "Unexpected token in JSON"
      | some args =>
          match buildMcpResults parseJson toolResults rest (idx + 1) with
          | .error e => .error e
          | .ok tail =>
              .ok ({ name := tc.function.name
                     arguments := args
                     result := parseToolResult parseJson
                       (((toolResults.get? idx).map ToolResult.content).getD "") } :: tail)

/-- handleToolCalls translates toolHandler.ts: execute every pending call
in parallel, decide whether a workflow MCP ends the conversation, build
the MCPResult list (which can throw on malformed arguments), and build
the function_call_output transcript items unless a workflow MCP ran. -/
def handleToolCalls (parseJson : String → Option Json) (streamState : StreamState)
    (mcpService : McpService) : Except String ToolHandlerResult :=
  let toolResults := executeToolCallsInParallel parseJson mcpService streamState.toolCalls
  let isWorkflowMCP := hasWorkflowMCP streamState.toolCalls
  match buildMcpResults parseJson toolResults streamState.toolCalls 0 with
  | .error e => .error e
  | .ok mcpResults =>
      let toolOutputs :=
        if isWorkflowMCP then []
        else (toolResults.zip streamState.toolCalls).map
          (fun p => ResponseInputItem.functionCallOutput p.2.id p.1.content)
      .ok { shouldEndConversation := isWorkflowMCP
            mcpResults := mcpResults
            toolOutputs := toolOutputs }

/-- EmittedOutput is a payload pushed to the output sink by an emitter
during stream processing (`__outputs.chunk` or `__outputs.reasoning`). -/
inductive EmittedOutput where
  | chunk (text : String)
  | reasoning (text : String)

/-- processStreamEvents is the `for await (const chunk of stream)` body of
processStream (streamHandler.ts): fold each chunk through the reducer,
then hand the growth of `fullText` and of `reasoning` to the respective
emitter. Returns the final stream state, both emitter states, and the
emissions in order. -/
def processStreamEvents : List RespEvent → StreamState → EmitterState → EmitterState →
    StreamState × EmitterState × EmitterState × List EmittedOutput
  | [], s, t, r => (s, t, r, [])
  | chunk :: rest, s, t, r =>
      let s' := processStreamChunk chunk s
      let newCharsCount := s'.fullText.length - s.fullText.length
      let tp :=
        if newCharsCount > 0 then TextEmitter.emitIfNeeded t s'.fullText newCharsCount
        else (t, none)
      let newReasoningChars := s'.reasoning.length - s.reasoning.length
      let rp :=
        if newReasoningChars > 0 then ReasoningEmitter.emitIfNeeded r s'.reasoning newReasoningChars
        else (r, none)
      let q := processStreamEvents rest s' tp.1 rp.1
      (q.1, q.2.1, q.2.2.1,
        (tp.2.map EmittedOutput.chunk).toList ++
        (rp.2.map EmittedOutput.reasoning).toList ++ q.2.2.2)

/-- processStream translates streamHandler.ts: reset the per-iteration
state (keeping accumulated text, reasoning and usage) and process every
chunk of the stream. -/
def processStream (events : List RespEvent) (previousState : StreamState)
    (tEm rEm : EmitterState) :
    StreamState × EmitterState × EmitterState × List EmittedOutput :=
  processStreamEvents events
    (initializeStreamState previousState.fullText previousState.reasoning previousState.usage)
    tEm rEm

/-- ConversationResult mirrors `interface ConversationResult` of
conversation/types.ts. -/
structure ConversationResult where
  fullText : String
  reasoning : String
  usage : Json
  finishReason : Option String
  toolCalls : Option (List MCPResult)

/-- ConversationConfig carries what the conversation loop consumes from
its collaborators: the transport as an oracle from (1-based) iteration
number to the event sequence of the stream created for that iteration
(`openai.responses.create`), the optional capability registry, the
`JSON.parse` oracle, and the configured `maxIterations`
(`none`/`some 0` being falsy, defaulted to 10 by `|| 10`). -/
structure ConversationConfig where
  streams : Nat → List RespEvent
  mcpService : Option McpService
  parseJson : String → Option Json
  maxIterations : Option Nat

/-- effectiveMaxIterations embeds `config.maxIterations || 10`. -/
def effectiveMaxIterations : Option Nat → Nat
  | none => 10
  | some 0 => 10
  | some n => n

/-- mkConversationResult is the return-value construction of
runConversationLoop: `allToolCalls.length > 0 ? allToolCalls : undefined`. -/
def mkConversationResult (s : StreamState) (allToolCalls : List MCPResult) :
    ConversationResult :=
  { fullText := s.fullText
    reasoning := s.reasoning
    usage := s.usage
    finishReason := s.finishReason
    toolCalls := if allToolCalls.length > 0 then some allToolCalls else none }

/-- runConversationLoopAux is the `while (iteration < maxIterations)` loop
of runConversationLoop (conversationLoop.ts, the refactored version of
streamHandler.ts lines 376-462), as structural recursion on
`remaining = maxIterations - iteration` (so `remaining = 0` is exactly the
exhausted loop guard). Each pass: increment the counter, prepare the
request (transport-level only, absorbed by the `streams` oracle), create
and process the stream, break on no tool calls, amend the instructions and
continue when no registry is connected, otherwise push the assistant
message, run handleToolCalls (whose throw propagates), record and emit the
MCP results, break on a workflow MCP, else chain the response id and push
the tool outputs. The returned `Nat` is the final value of the `iteration`
counter, exposed so that iteration-count properties can be stated; the
emitted outputs are side effects and are not part of the return value. -/
def runConversationLoopAux (cfg : ConversationConfig) :
    Nat → Nat → StreamState → EmitterState → EmitterState → List ResponseInputItem →
    String → Option String → List MCPResult → Except String (ConversationResult × Nat)
  | 0, iteration, streamState, _, _, _, _, _, allToolCalls =>
      .ok (mkConversationResult streamState allToolCalls, iteration)
  | remaining + 1, iteration, streamState, tEm, rEm, inputItems, instructions,
      _prevRespId, allToolCalls =>
      let iter := iteration + 1
      let events := cfg.streams iter
      let p := processStream events streamState tEm rEm
      let s' := p.1
      let tEm' := p.2.1
      let rEm' := p.2.2.1
      if s'.toolCalls.length = 0 then
        .ok (mkConversationResult s' allToolCalls, iter)
      else
        match cfg.mcpService with
        | none =>
            runConversationLoopAux cfg remaining iter s' tEm' rEm' inputItems
              (instructions ++ "\n\nTools unavailable. Answer directly.")
              _prevRespId allToolCalls
        | some svc =>
            let inputItems2 :=
              if s'.iterationText ≠ "" then
                inputItems ++ [ResponseInputItem.message "assistant" s'.iterationText]
              else inputItems
            match handleToolCalls cfg.parseJson s' svc with
            | .error e => .error e
            | .ok tr =>
                let allToolCalls2 := allToolCalls ++ tr.mcpResults
                if tr.shouldEndConversation then
                  .ok (mkConversationResult s' allToolCalls2, iter)
                else
                  runConversationLoopAux cfg remaining iter s' tEm' rEm'
                    (inputItems2 ++ tr.toolOutputs) instructions
                    s'.responseId allToolCalls2

/-- runConversationLoop translates `runConversationLoop` of
conversationLoop.ts: fresh stream state, no previous response id, empty
tool-call record, and the while loop bounded by the effective maximum
iteration count. -/
def runConversationLoop (cfg : ConversationConfig) :
    Except String (ConversationResult × Nat) :=
  runConversationLoopAux cfg (effectiveMaxIterations cfg.maxIterations) 0
    (initializeStreamState "" "" (Json.obj [])) ⟨0⟩ ⟨0⟩ [] "" none []

/-- concatStrings is the concatenation of a list of strings in order. -/
def concatStrings : List String → String
  | [] => ""
  | s :: rest => s ++ concatStrings rest

/-- testState0 is a fresh accumulator, used as concrete input by witnesses. -/
def testState0 : StreamState := initializeStreamState "" "" (Json.obj [])

/-- C1: folding any sequence of text-delta events with non-empty deltas
through the reducer appends the concatenation of the deltas, in arrival
order, to both `fullText` and `iterationText` (no iteration reset can
occur inside a fold of the reducer alone). -/
theorem C1_text_delta_fold_concat (ds : List String) (s : StreamState)
    (h : ∀ d ∈ ds, d ≠ "") :
    (ds.foldl (fun st d => processResponsesApiEvent (.outputTextDelta d) st) s).fullText
        = s.fullText ++ concatStrings ds ∧
    (ds.foldl (fun st d => processResponsesApiEvent (.outputTextDelta d) st) s).iterationText
        = s.iterationText ++ concatStrings ds := by
  induction ds generalizing s with
  | nil => simp [concatStrings]
  | cons d ds ih =>
      have hd : d ≠ "" := h d (by simp)
      have hrest : ∀ x ∈ ds, x ≠ "" := fun x hx => h x (by simp [hx])
      obtain ⟨h1, h2⟩ := ih (processResponsesApiEvent (.outputTextDelta d) s) hrest
      refine ⟨?_, ?_⟩
      · rw [List.foldl_cons, h1]
        simp [processResponsesApiEvent, hd, concatStrings, String.append_assoc]
      · rw [List.foldl_cons, h2]
        simp [processResponsesApiEvent, hd, concatStrings, String.append_assoc]

/-- Witness for C1 at the concrete deltas "Hel", "lo ", "world". -/
theorem C1_text_delta_fold_concat_witness :
    (∀ d ∈ ["Hel", "lo ", "world"], d ≠ "") ∧
    ((["Hel", "lo ", "world"].foldl
        (fun st d => processResponsesApiEvent (.outputTextDelta d) st) testState0).fullText
        = testState0.fullText ++ concatStrings ["Hel", "lo ", "world"] ∧
     (["Hel", "lo ", "world"].foldl
        (fun st d => processResponsesApiEvent (.outputTextDelta d) st) testState0).iterationText
        = testState0.iterationText ++ concatStrings ["Hel", "lo ", "world"]) :=
  ⟨by decide, C1_text_delta_fold_concat ["Hel", "lo ", "world"] testState0 (by decide)⟩

/-- C3: after two consecutive response.completed events both carrying
usage payloads, with differing payloads, the accumulated usage equals the
second payload exactly (replacement, not summation). -/
theorem C3_usage_replaced_wholesale (s : StreamState) (u1 u2 : Json)
    (id1 id2 : String) (h : u1 ≠ u2) :
    (processResponsesApiEvent (.responseCompleted (some u2) id2)
      (processResponsesApiEvent (.responseCompleted (some u1) id1) s)).usage = u2 := by
  simp only [processResponsesApiEvent]
  split <;> split <;> rfl

/-- Witness for C3 at differing concrete usage payloads. -/
theorem C3_usage_replaced_wholesale_witness :
    Json.num 7 ≠ Json.num 12 ∧
    (processResponsesApiEvent (.responseCompleted (some (Json.num 12)) "r2")
      (processResponsesApiEvent (.responseCompleted (some (Json.num 7)) "r1")
        testState0)).usage = Json.num 12 :=
  ⟨by simp, C3_usage_replaced_wholesale testState0 (Json.num 7) (Json.num 12) "r1" "r2" (by simp)⟩

/-- C9state is an accumulator whose responseId is already set. -/
def C9state : StreamState := { testState0 with responseId := some "resp_A" }

/-- C9 counterexample: a response.created event carrying "resp_B" reaching
a state whose responseId is already "resp_A" does NOT leave responseId
unchanged — the reducer overwrites it (responsesApiHandler.ts lines 90-95
have no emptiness guard; the only-if-unset guard sits in the
response.completed arm, lines 114-117). -/
theorem C9_created_overwrites_counterexample :
    (processResponsesApiEvent (.responseCreated "resp_B") C9state).responseId
      ≠ C9state.responseId := by decide

/-- C9 (amended): on a response.created event carrying a truthy response
id, the reducer always stores that id into responseId, whether or not
responseId was already set; the capture-only-if-unset behavior belongs to
response.completed instead. -/
theorem C9_created_always_captures (s : StreamState) (rid : String) (h : rid ≠ "") :
    (processResponsesApiEvent (.responseCreated rid) s).responseId = some rid := by
  simp [processResponsesApiEvent, h]

/-- Witness for the amended C9 at an already-set state. -/
theorem C9_created_always_captures_witness :
    ("resp_B" : String) ≠ "" ∧
    (processResponsesApiEvent (.responseCreated "resp_B") C9state).responseId = some "resp_B" :=
  ⟨by decide, C9_created_always_captures C9state "resp_B" (by decide)⟩

/-- C10: a single emitIfNeeded call whose new-character count is at least
the threshold (hence any multiple of it) fires exactly one emission
carrying the full value and resets the counter to zero, for both the text
and the reasoning emitter — the overshoot beyond the threshold is
discarded, not carried toward the next emission. -/
theorem C10_overshoot_discarded (c : Nat) (v w : String) (n m : Nat)
    (hn : TEXT_EMIT_INTERVAL ≤ n) (hm : REASONING_EMIT_INTERVAL ≤ m) :
    TextEmitter.emitIfNeeded ⟨c⟩ v n = (⟨0⟩, some v) ∧
    ReasoningEmitter.emitIfNeeded ⟨c⟩ w m = (⟨0⟩, some w) := by
  constructor
  · simp only [TextEmitter.emitIfNeeded]
    rw [if_pos (by omega)]
  · simp only [ReasoningEmitter.emitIfNeeded]
    rw [if_pos (by omega)]

/-- Witness for C10: a double-threshold text call and an overshooting
reasoning call from a non-zero counter both flush once and reset. -/
theorem C10_overshoot_discarded_witness :
    TEXT_EMIT_INTERVAL ≤ 600 ∧ REASONING_EMIT_INTERVAL ≤ 151 ∧
    TextEmitter.emitIfNeeded ⟨5⟩ "t" 600 = (⟨0⟩, some "t") ∧
    ReasoningEmitter.emitIfNeeded ⟨5⟩ "r" 151 = (⟨0⟩, some "r") :=
  ⟨by decide, by decide,
   (C10_overshoot_discarded 5 "t" "r" 600 151 (by decide) (by decide)).1,
   (C10_overshoot_discarded 5 "t" "r" 600 151 (by decide) (by decide)).2⟩

/-- updateFirstToolCall applied twice with an idempotent, itemId-preserving
update equals one application. -/
theorem updateFirstToolCall_idem (iid : String) (f : ToolCall → ToolCall)
    (hid : ∀ tc, (f tc).itemId = tc.itemId) (hff : ∀ tc, f (f tc) = f tc) :
    ∀ l, updateFirstToolCall iid f (updateFirstToolCall iid f l)
          = updateFirstToolCall iid f l
  | [] => rfl
  | tc :: rest => by
      by_cases h : tc.itemId = iid
      · simp [updateFirstToolCall, h, hid, hff]
      · simp [updateFirstToolCall, h, updateFirstToolCall_idem iid f hid hff rest]

/-- find? by itemId after updateFirstToolCall with an itemId-preserving
update returns the update applied to the original first match. -/
theorem find?_updateFirstToolCall (iid : String) (f : ToolCall → ToolCall)
    (hid : ∀ tc, (f tc).itemId = tc.itemId) :
    ∀ l tc, l.find? (fun c => c.itemId == iid) = some tc →
      (updateFirstToolCall iid f l).find? (fun c => c.itemId == iid) = some (f tc)
  | [], tc => by intro h; simp [List.find?] at h
  | hd :: rest, tc => by
      intro h
      by_cases hh : hd.itemId = iid
      · have : hd = tc := by
          simp [List.find?_cons, hh] at h
          exact h
        subst this
        simp [updateFirstToolCall, hh, List.find?_cons, hid]
      · have hrest : rest.find? (fun c => c.itemId == iid) = some tc := by
          simpa [List.find?_cons, hh] using h
        simp [updateFirstToolCall, hh, List.find?_cons,
          find?_updateFirstToolCall iid f hid rest tc hrest]

/-- C5: replaying the same function_call_arguments.done event twice is
idempotent, and when a pending call with the matching itemId exists, after
the event its arguments equal the done payload exactly (replacement, not a
double-appended string) and its name is overwritten exactly when the event
provides a non-empty one. -/
theorem C5_arguments_done_idempotent (s : StreamState) (iid nm args : String) :
    processResponsesApiEvent (.functionCallArgumentsDone iid nm args)
        (processResponsesApiEvent (.functionCallArgumentsDone iid nm args) s)
      = processResponsesApiEvent (.functionCallArgumentsDone iid nm args) s ∧
    (∀ tc, iid ≠ "" →
      s.toolCalls.find? (fun c => c.itemId == iid) = some tc →
      (processResponsesApiEvent (.functionCallArgumentsDone iid nm args) s).toolCalls.find?
          (fun c => c.itemId == iid)
        = some { tc with function :=
            { name := if nm ≠ "" then nm else tc.function.name
              arguments := args } }) := by
  constructor
  · by_cases hiid : iid = ""
    · simp [processResponsesApiEvent, hiid]
    · simp only [processResponsesApiEvent, if_pos (show iid ≠ "" from hiid)]
      congr 1
      exact updateFirstToolCall_idem iid
        (fun tc => { tc with function :=
          { name := if nm ≠ "" then nm else tc.function.name, arguments := args } })
        (fun tc => rfl)
        (fun tc => by by_cases hnm : nm = "" <;> simp [hnm]) s.toolCalls
  · intro tc hiid hfind
    simp only [processResponsesApiEvent, if_pos hiid]
    exact find?_updateFirstToolCall iid
      (fun tc => { tc with function :=
        { name := if nm ≠ "" then nm else tc.function.name, arguments := args } })
      (fun c => rfl) s.toolCalls tc hfind

/-- C5state holds one pending call with partially accumulated fragments. -/
def C5state : StreamState :=
  { testState0 with
      toolCalls := [{ id := "call_1", itemId := "item_1", type := "function"
                      function := { name := "", arguments := "partial-fra" } }] }

/-- Witness for C5 at a concrete state, with the done event both renaming
the call and replacing the fragments. -/
theorem C5_arguments_done_idempotent_witness :
    ("item_1" : String) ≠ "" ∧
    C5state.toolCalls.find? (fun c => c.itemId == "item_1")
      = some { id := "call_1", itemId := "item_1", type := "function"
               function := { name := "", arguments := "partial-fra" } } ∧
    processResponsesApiEvent (.functionCallArgumentsDone "item_1" "search" "final-args")
        (processResponsesApiEvent (.functionCallArgumentsDone "item_1" "search" "final-args")
          C5state)
      = processResponsesApiEvent (.functionCallArgumentsDone "item_1" "search" "final-args")
          C5state ∧
    (processResponsesApiEvent (.functionCallArgumentsDone "item_1" "search" "final-args")
        C5state).toolCalls.find? (fun c => c.itemId == "item_1")
      = some { id := "call_1", itemId := "item_1", type := "function"
               function := { name := if ("search" : String) ≠ "" then "search" else ""
                             arguments := "final-args" } } :=
  ⟨by decide, by decide,
   (C5_arguments_done_idempotent C5state "item_1" "search" "final-args").1,
   (C5_arguments_done_idempotent C5state "item_1" "search" "final-args").2
     { id := "call_1", itemId := "item_1", type := "function"
       function := { name := "", arguments := "partial-fra" } }
     (by decide) (by decide)⟩

/-- C8: fullText only grows — for every event of the taxonomy and every
accumulator state, the fullText before the reducer step is a prefix of the
fullText after it (the step only ever appends). -/
theorem C8_fullText_monotonic (chunk : RespEvent) (s : StreamState) :
    ∃ t, (processResponsesApiEvent chunk s).fullText = s.fullText ++ t := by
  cases chunk with
  | outputTextDelta d =>
      by_cases hd : d = ""
      · exact ⟨"", by simp [processResponsesApiEvent, hd]⟩
      · exact ⟨d, by simp [processResponsesApiEvent, hd]⟩
  | outputTextDone => exact ⟨"", by simp [processResponsesApiEvent]⟩
  | reasoningSummaryTextDelta d =>
      by_cases hd : d = "" <;> exact ⟨"", by simp [processResponsesApiEvent, hd]⟩
  | reasoningSummaryTextDone => exact ⟨"", by simp [processResponsesApiEvent]⟩
  | reasoningTextDelta d => exact ⟨"", by simp [processResponsesApiEvent]⟩
  | reasoningTextDone => exact ⟨"", by simp [processResponsesApiEvent]⟩
  | outputItemAdded item =>
      cases item with
      | none => exact ⟨"", by simp [processResponsesApiEvent]⟩
      | some it =>
          by_cases h : it.type = "function_call" <;>
            exact ⟨"", by simp [processResponsesApiEvent, h]⟩
  | functionCallArgumentsDelta iid d =>
      by_cases h : d ≠ "" ∧ iid ≠ "" <;>
        exact ⟨"", by simp [processResponsesApiEvent, h]⟩
  | functionCallArgumentsDone iid nm args =>
      by_cases h : iid = "" <;> exact ⟨"", by simp [processResponsesApiEvent, h]⟩
  | responseCreated rid =>
      by_cases h : rid = "" <;> exact ⟨"", by simp [processResponsesApiEvent, h]⟩
  | responseInProgress => exact ⟨"", by simp [processResponsesApiEvent]⟩
  | responseQueued => exact ⟨"", by simp [processResponsesApiEvent]⟩
  | responseCompleted u rid =>
      refine ⟨"", ?_⟩
      cases u <;> simp only [processResponsesApiEvent] <;> split <;> simp
  | responseFailed => exact ⟨"", by simp [processResponsesApiEvent]⟩
  | responseIncomplete reason => exact ⟨"", by simp [processResponsesApiEvent]⟩
  | outputItemDone item =>
      cases item <;> exact ⟨"", by simp [processResponsesApiEvent]⟩
  | contentPartEvent label => exact ⟨"", by simp [processResponsesApiEvent]⟩
  | refusalDelta d =>
      by_cases hd : d = ""
      · exact ⟨"", by simp [processResponsesApiEvent, hd]⟩
      · exact ⟨"[REFUSAL: " ++ d ++ "]", by
          simp [processResponsesApiEvent, hd, String.append_assoc]⟩
  | refusalDone refusal =>
      by_cases hr : refusal = ""
      · exact ⟨"", by simp [processResponsesApiEvent, hr]⟩
      · exact ⟨"[REFUSAL: " ++ refusal ++ "]", by
          simp [processResponsesApiEvent, hr, String.append_assoc]⟩
  | mcpCallEvent label => exact ⟨"", by simp [processResponsesApiEvent]⟩
  | otherToolEvent label => exact ⟨"", by simp [processResponsesApiEvent]⟩
  | annotationAdded => exact ⟨"", by simp [processResponsesApiEvent]⟩
  | customToolCallInput label => exact ⟨"", by simp [processResponsesApiEvent]⟩
  | errorEvent => exact ⟨"", by simp [processResponsesApiEvent]⟩
  | unknown ty => exact ⟨"", by simp [processResponsesApiEvent]⟩

/-- emitStep is the shared threshold policy of both emitter classes,
parameterized only by the interval constant. -/
def emitStep (T : Nat) (st : EmitterState) (v : String) (n : Nat) :
    EmitterState × Option String :=
  let c := st.charsSinceLastEmit + n
  if c ≥ T then ({ charsSinceLastEmit := 0 }, some v)
  else ({ charsSinceLastEmit := c }, none)

/-- emitFold folds a sequence of emitIfNeeded invocations, collecting the
emissions in order. -/
def emitFold (T : Nat) (st : EmitterState) : List (String × Nat) → EmitterState × List String
  | [] => (st, [])
  | (v, n) :: rest =>
      let p := emitStep T st v n
      let q := emitFold T p.1 rest
      (q.1, p.2.toList ++ q.2)

/-- textEmitterRun is a sequence of TextEmitter.emitIfNeeded invocations
on one TextEmitter instance, collecting the emitted chunk payloads. -/
def textEmitterRun (st : EmitterState) : List (String × Nat) → EmitterState × List String
  | [] => (st, [])
  | (v, n) :: rest =>
      let p := TextEmitter.emitIfNeeded st v n
      let q := textEmitterRun p.1 rest
      (q.1, p.2.toList ++ q.2)

/-- reasoningEmitterRun is the same for one ReasoningEmitter instance. -/
def reasoningEmitterRun (st : EmitterState) : List (String × Nat) → EmitterState × List String
  | [] => (st, [])
  | (v, n) :: rest =>
      let p := ReasoningEmitter.emitIfNeeded st v n
      let q := reasoningEmitterRun p.1 rest
      (q.1, p.2.toList ++ q.2)

/-- textEmitterRun is emitFold at the text interval. -/
theorem textEmitterRun_eq_emitFold (st : EmitterState) :
    ∀ l, textEmitterRun st l = emitFold TEXT_EMIT_INTERVAL st l
  | [] => rfl
  | (v, n) :: rest => by
      simp only [textEmitterRun, emitFold]
      rw [show TextEmitter.emitIfNeeded st v n = emitStep TEXT_EMIT_INTERVAL st v n from rfl,
        textEmitterRun_eq_emitFold _ rest]

/-- reasoningEmitterRun is emitFold at the reasoning interval. -/
theorem reasoningEmitterRun_eq_emitFold (st : EmitterState) :
    ∀ l, reasoningEmitterRun st l = emitFold REASONING_EMIT_INTERVAL st l
  | [] => rfl
  | (v, n) :: rest => by
      simp only [reasoningEmitterRun, emitFold]
      rw [show ReasoningEmitter.emitIfNeeded st v n = emitStep REASONING_EMIT_INTERVAL st v n
        from rfl, reasoningEmitterRun_eq_emitFold _ rest]

/-- countSum is the cumulative new-character count of a call sequence. -/
def countSum (l : List (String × Nat)) : Nat := (l.map Prod.snd).sum

/-- emitFold emits nothing while the counter stays strictly below the
threshold, and ends with the counter holding the accumulated count. -/
theorem emitFold_below_threshold (T : Nat) :
    ∀ (l : List (String × Nat)) (st : EmitterState),
      st.charsSinceLastEmit + countSum l < T →
      emitFold T st l = ({ charsSinceLastEmit := st.charsSinceLastEmit + countSum l }, [])
  | [], st => by intro h; simp [emitFold, countSum]
  | (v, n) :: rest, st => by
      intro h
      have hsum : countSum ((v, n) :: rest) = n + countSum rest := by
        simp [countSum]
      have hlt : st.charsSinceLastEmit + n < T := by omega
      have hstep : emitStep T st v n = ({ charsSinceLastEmit := st.charsSinceLastEmit + n }, none) := by
        simp only [emitStep]
        rw [if_neg (by omega)]
      have hrest := emitFold_below_threshold T rest
        { charsSinceLastEmit := st.charsSinceLastEmit + n } (by simp; omega)
      simp only [emitFold, hstep, hrest]
      simp
      omega

/-- When the cumulative count from a counter strictly below the threshold
reaches the threshold exactly, the fold fires exactly one emission — the
full value passed at the call where the running total first reaches the
threshold — and ends with the counter reset to zero. -/
theorem emitFold_exact_threshold (T : Nat) (hT : 0 < T) :
    ∀ (l : List (String × Nat)) (st : EmitterState),
      st.charsSinceLastEmit < T →
      st.charsSinceLastEmit + countSum l = T →
      ∃ j, ∃ hj : j < l.length,
        (emitFold T st l).2 = [(l.get ⟨j, hj⟩).1] ∧
        (emitFold T st l).1 = { charsSinceLastEmit := 0 } ∧
        st.charsSinceLastEmit + countSum (l.take (j + 1)) = T
  | [], st => by
      intro hlt hsum
      simp [countSum] at hsum
      omega
  | (v, n) :: rest, st => by
      intro hlt hsum
      have hsum' : st.charsSinceLastEmit + n + countSum rest = T := by
        simp [countSum] at hsum ⊢
        omega
      by_cases hge : st.charsSinceLastEmit + n ≥ T
      · have hc : st.charsSinceLastEmit + n = T := by omega
        have hrest0 : countSum rest = 0 := by omega
        have hstep : emitStep T st v n = ({ charsSinceLastEmit := 0 }, some v) := by
          simp only [emitStep]
          rw [if_pos (by omega)]
        have hnone := emitFold_below_threshold T rest { charsSinceLastEmit := 0 }
          (by simp [hrest0]; omega)
        refine ⟨0, by simp, ?_, ?_, ?_⟩
        · simp [emitFold, hstep, hnone]
        · simp [emitFold, hstep, hnone, hrest0]
        · simp [countSum]
          omega
      · have hstep : emitStep T st v n
            = ({ charsSinceLastEmit := st.charsSinceLastEmit + n }, none) := by
          simp only [emitStep]
          rw [if_neg (by omega)]
        obtain ⟨j, hj, hout, hst, htake⟩ := emitFold_exact_threshold T hT rest
          { charsSinceLastEmit := st.charsSinceLastEmit + n } (by simp; omega)
          (by simp; omega)
        refine ⟨j + 1, by simpa using Nat.succ_lt_succ hj, ?_, ?_, ?_⟩
        · simp [emitFold, hstep]
          exact hout
        · simp [emitFold, hstep]
          exact hst
        · simp [countSum] at htake ⊢
          omega

/-- C7: for the text emitter (threshold 300) and the reasoning emitter
(threshold 150), a sequence of emitIfNeeded calls from a fresh instance
whose cumulative new-character count reaches exactly the threshold fires
exactly one emission — carrying the entire accumulated value passed at the
firing call, namely the call where the running total reaches the
threshold — and leaves the counter at zero; a subsequent emitFinal with
the counter at zero emits nothing (for any value passed to it). -/
theorem C7_exact_threshold_single_flush (tcalls rcalls : List (String × Nat))
    (ht : countSum tcalls = TEXT_EMIT_INTERVAL)
    (hr : countSum rcalls = REASONING_EMIT_INTERVAL) :
    (∃ j, ∃ hj : j < tcalls.length,
      (textEmitterRun ⟨0⟩ tcalls).2 = [(tcalls.get ⟨j, hj⟩).1] ∧
      (textEmitterRun ⟨0⟩ tcalls).1 = ⟨0⟩ ∧
      countSum (tcalls.take (j + 1)) = TEXT_EMIT_INTERVAL) ∧
    (∀ v, (TextEmitter.emitFinal (textEmitterRun ⟨0⟩ tcalls).1 v).2 = none) ∧
    (∃ j, ∃ hj : j < rcalls.length,
      (reasoningEmitterRun ⟨0⟩ rcalls).2 = [(rcalls.get ⟨j, hj⟩).1] ∧
      (reasoningEmitterRun ⟨0⟩ rcalls).1 = ⟨0⟩ ∧
      countSum (rcalls.take (j + 1)) = REASONING_EMIT_INTERVAL) ∧
    (∀ v, (ReasoningEmitter.emitFinal (reasoningEmitterRun ⟨0⟩ rcalls).1 v).2 = none) := by
  have hT : (0 : Nat) < TEXT_EMIT_INTERVAL := by decide
  have hR : (0 : Nat) < REASONING_EMIT_INTERVAL := by decide
  obtain ⟨j, hj, hout, hst, htake⟩ := emitFold_exact_threshold TEXT_EMIT_INTERVAL hT tcalls
    ⟨0⟩ hT (by simpa using ht)
  obtain ⟨k, hk, rout, rst, rtake⟩ := emitFold_exact_threshold REASONING_EMIT_INTERVAL hR rcalls
    ⟨0⟩ hR (by simpa using hr)
  rw [textEmitterRun_eq_emitFold, reasoningEmitterRun_eq_emitFold]
  refine ⟨⟨j, hj, hout, hst, by simpa using htake⟩, ?_,
          ⟨k, hk, rout, rst, by simpa using rtake⟩, ?_⟩
  · intro v
    rw [hst]
    simp [TextEmitter.emitFinal]
  · intro v
    rw [rst]
    simp [ReasoningEmitter.emitFinal]

/-- Witness for C7 at concrete call sequences summing exactly to each
threshold. -/
theorem C7_exact_threshold_single_flush_witness :
    countSum [("a", 100), ("ab", 150), ("abc", 50)] = TEXT_EMIT_INTERVAL ∧
    countSum [("r", 149), ("rs", 1)] = REASONING_EMIT_INTERVAL ∧
    ((∃ j, ∃ hj : j < ([("a", 100), ("ab", 150), ("abc", 50)] : List (String × Nat)).length,
      (textEmitterRun ⟨0⟩ [("a", 100), ("ab", 150), ("abc", 50)]).2
        = [(([("a", 100), ("ab", 150), ("abc", 50)] : List (String × Nat)).get ⟨j, hj⟩).1] ∧
      (textEmitterRun ⟨0⟩ [("a", 100), ("ab", 150), ("abc", 50)]).1 = ⟨0⟩ ∧
      countSum (([("a", 100), ("ab", 150), ("abc", 50)] : List (String × Nat)).take (j + 1))
        = TEXT_EMIT_INTERVAL) ∧
    (∀ v, (TextEmitter.emitFinal
        (textEmitterRun ⟨0⟩ [("a", 100), ("ab", 150), ("abc", 50)]).1 v).2 = none) ∧
    (∃ j, ∃ hj : j < ([("r", 149), ("rs", 1)] : List (String × Nat)).length,
      (reasoningEmitterRun ⟨0⟩ [("r", 149), ("rs", 1)]).2
        = [(([("r", 149), ("rs", 1)] : List (String × Nat)).get ⟨j, hj⟩).1] ∧
      (reasoningEmitterRun ⟨0⟩ [("r", 149), ("rs", 1)]).1 = ⟨0⟩ ∧
      countSum (([("r", 149), ("rs", 1)] : List (String × Nat)).take (j + 1))
        = REASONING_EMIT_INTERVAL) ∧
    (∀ v, (ReasoningEmitter.emitFinal
        (reasoningEmitterRun ⟨0⟩ [("r", 149), ("rs", 1)]).1 v).2 = none)) :=
  ⟨by decide, by decide,
   C7_exact_threshold_single_flush [("a", 100), ("ab", 150), ("abc", 50)]
     [("r", 149), ("rs", 1)] (by decide) (by decide)⟩

/-- C2: the executor returns exactly one result per call; the result at
index i is the execution of calls[i] (input order — `Promise.all` joins
index-correlated promises positionally, so this holds regardless of
completion order); when the registry function for call K rejects with
message msg, result K carries the JSON string of the error object while
every other result, being determined by its own call alone, is unaffected.
The executor itself is a total function here because `executeToolCall`
catches every failure: the embedded `executeAll` cannot reject. -/
theorem C2_executor_isolation (parseJson : String → Option Json) (svc : McpService)
    (calls : List ToolCall) (K : Nat) (callK : ToolCall)
    (f : Json → Except String Json) (msg : String)
    (hK : calls.get? K = some callK)
    (hsvc : svc callK.function.name = some f)
    (hthrow : f ((parseJson callK.function.arguments).getD (Json.obj [])) = .error msg) :
    (executeToolCallsInParallel parseJson svc calls).length = calls.length ∧
    (∀ i, (executeToolCallsInParallel parseJson svc calls).get? i
        = (calls.get? i).map (executeToolCall parseJson svc)) ∧
    ((executeToolCallsInParallel parseJson svc calls).get? K).map ToolResult.content
      = some (jsonStringify (Json.obj [("error", Json.str msg)])) := by
  refine ⟨by simp [executeToolCallsInParallel], ?_, ?_⟩
  · intro i
    simp [executeToolCallsInParallel]
  · have hmap : (executeToolCallsInParallel parseJson svc calls).get? K
        = (calls.get? K).map (executeToolCall parseJson svc) := by
      simp [executeToolCallsInParallel]
    rw [hmap, hK]
    simp [executeToolCall, hsvc, hthrow]

/-- okNullFn is a registry function that resolves with JSON null. -/
def okNullFn : Json → Except String Json := fun _ => Except.ok Json.null

/-- boomFn is a registry function that always rejects. -/
def boomFn : Json → Except String Json := fun _ => Except.error "kaboom"

/-- testSvc is a concrete registry used by witnesses: `boom` rejects,
`searchKnowledgeBase` resolves with null, everything else is absent. -/
def testSvc : McpService := fun name =>
  if name = "boom" then some boomFn
  else if name = "searchKnowledgeBase" then some okNullFn
  else none

/-- parseJsonStub is a `JSON.parse` oracle that always succeeds with the
empty object. -/
def parseJsonStub : String → Option Json := fun _ => some (Json.obj [])

/-- C2boomCall is a pending call naming the rejecting tool. -/
def C2boomCall : ToolCall :=
  { id := "call_b", itemId := "item_b", type := "function"
    function := { name := "boom", arguments := "\x7b\x7d" } }

/-- C2calls is a good call followed by the rejecting call. -/
def C2calls : List ToolCall :=
  [{ id := "call_a", itemId := "item_a", type := "function"
     function := { name := "searchKnowledgeBase", arguments := "\x7b\x7d" } },
   C2boomCall]

/-- Witness for C2 at a two-call batch whose second call rejects. -/
theorem C2_executor_isolation_witness :
    C2calls.get? 1 = some C2boomCall ∧
    testSvc C2boomCall.function.name = some boomFn ∧
    boomFn ((parseJsonStub C2boomCall.function.arguments).getD (Json.obj []))
      = Except.error "kaboom" ∧
    ((executeToolCallsInParallel parseJsonStub testSvc C2calls).length = C2calls.length ∧
     (∀ i, (executeToolCallsInParallel parseJsonStub testSvc C2calls).get? i
        = (C2calls.get? i).map (executeToolCall parseJsonStub testSvc)) ∧
     ((executeToolCallsInParallel parseJsonStub testSvc C2calls).get? 1).map ToolResult.content
      = some (jsonStringify (Json.obj [("error", Json.str "kaboom")]))) :=
  ⟨rfl, rfl, rfl,
   C2_executor_isolation parseJsonStub testSvc C2calls 1 C2boomCall boomFn "kaboom"
     rfl rfl rfl⟩

/-- badCall is a pending tool call whose arguments string is not valid
JSON. -/
def badCall : ToolCall :=
  { id := "call_bad", itemId := "item_bad", type := "function"
    function := { name := "searchKnowledgeBase", arguments := "not json" } }

/-- C6state is an accumulator holding only badCall. -/
def C6state : StreamState := { testState0 with toolCalls := [badCall] }

/-- C6parse is a `JSON.parse` oracle behaving like the builtin on the
inputs involved: it throws on `not json` and succeeds elsewhere. -/
def C6parse : String → Option Json := fun s =>
  if s = "not json" then none else some (Json.obj [])

/-- C6cfg drives one conversation whose first stream requests badCall. -/
def C6cfg : ConversationConfig :=
  { streams := fun _ =>
      [RespEvent.outputItemAdded (some
         { type := "function_call", id := "item_bad", call_id := "call_bad"
           name := "searchKnowledgeBase" }),
       RespEvent.functionCallArgumentsDone "item_bad" "" "not json"]
    mcpService := some testSvc
    parseJson := C6parse
    maxIterations := none }

/-- C6: evaluation at the failing input. The executor level behaves as the
claim says — `executeToolCall` degrades the malformed arguments to the
empty object and returns a normal result (here the stringified null that
the registry resolves with). But `handleToolCalls` then re-parses the same
raw arguments string with no try/catch while building the MCP results
(toolHandler.ts line 57), so it rejects, and the whole conversation loop
rejects with it: the parse failure does abort the conversation,
contradicting the claim. -/
theorem C6_parse_failure_aborts_conversation :
    executeToolCall C6parse testSvc badCall
      = { tool_call_id := "call_bad", role := "tool", content := jsonStringify Json.null } ∧
    handleToolCalls C6parse C6state testSvc = .error "Unexpected token in JSON" ∧
    runConversationLoop C6cfg = .error "Unexpected token in JSON" :=
  ⟨rfl, rfl, rfl⟩

/-- The toolCalls component of a reducer step depends only on the event
and the toolCalls component of the input state (the text, reasoning,
usage, id and reason fields never influence it). -/
theorem processResponsesApiEvent_toolCalls_congr (chunk : RespEvent) (s s' : StreamState)
    (h : s.toolCalls = s'.toolCalls) :
    (processResponsesApiEvent chunk s).toolCalls
      = (processResponsesApiEvent chunk s').toolCalls := by
  cases chunk with
  | outputTextDelta d =>
      by_cases hd : d = "" <;> simp [processResponsesApiEvent, hd, h]
  | outputTextDone => simp [processResponsesApiEvent, h]
  | reasoningSummaryTextDelta d =>
      by_cases hd : d = "" <;> simp [processResponsesApiEvent, hd, h]
  | reasoningSummaryTextDone => simp [processResponsesApiEvent, h]
  | reasoningTextDelta d => simp [processResponsesApiEvent, h]
  | reasoningTextDone => simp [processResponsesApiEvent, h]
  | outputItemAdded item =>
      cases item with
      | none => simp [processResponsesApiEvent, h]
      | some it =>
          by_cases ht : it.type = "function_call" <;>
            simp [processResponsesApiEvent, ht, h]
  | functionCallArgumentsDelta iid d =>
      by_cases hc : d ≠ "" ∧ iid ≠ "" <;>
        simp [processResponsesApiEvent, hc, h]
  | functionCallArgumentsDone iid nm args =>
      by_cases hiid : iid = "" <;> simp [processResponsesApiEvent, hiid, h]
  | responseCreated rid =>
      by_cases hr : rid = "" <;> simp [processResponsesApiEvent, hr, h]
  | responseInProgress => simp [processResponsesApiEvent, h]
  | responseQueued => simp [processResponsesApiEvent, h]
  | responseCompleted u rid =>
      cases u <;> simp only [processResponsesApiEvent] <;> split <;> split <;>
        simp [h]
  | responseFailed => simp [processResponsesApiEvent, h]
  | responseIncomplete reason => simp [processResponsesApiEvent, h]
  | outputItemDone item =>
      cases item <;> simp [processResponsesApiEvent, h]
  | contentPartEvent label => simp [processResponsesApiEvent, h]
  | refusalDelta d =>
      by_cases hd : d = "" <;> simp [processResponsesApiEvent, hd, h]
  | refusalDone refusal =>
      by_cases hr : refusal = "" <;> simp [processResponsesApiEvent, hr, h]
  | mcpCallEvent label => simp [processResponsesApiEvent, h]
  | otherToolEvent label => simp [processResponsesApiEvent, h]
  | annotationAdded => simp [processResponsesApiEvent, h]
  | customToolCallInput label => simp [processResponsesApiEvent, h]
  | errorEvent => simp [processResponsesApiEvent, h]
  | unknown ty => simp [processResponsesApiEvent, h]

/-- The same for processStreamChunk. -/
theorem processStreamChunk_toolCalls_congr (chunk : RespEvent) (s s' : StreamState)
    (h : s.toolCalls = s'.toolCalls) :
    (processStreamChunk chunk s).toolCalls = (processStreamChunk chunk s').toolCalls := by
  by_cases hty : chunk.ty = "" <;>
    simp [processStreamChunk, hty, h, processResponsesApiEvent_toolCalls_congr chunk s s' h]

/-- The same for a fold over a whole event sequence. -/
theorem foldChunks_toolCalls_congr :
    ∀ (events : List RespEvent) (s s' : StreamState), s.toolCalls = s'.toolCalls →
      (events.foldl (fun st ch => processStreamChunk ch st) s).toolCalls
        = (events.foldl (fun st ch => processStreamChunk ch st) s').toolCalls
  | [], s, s' => fun h => h
  | ch :: rest, s, s' => fun h => by
      simp only [List.foldl_cons]
      exact foldChunks_toolCalls_congr rest _ _
        (processStreamChunk_toolCalls_congr ch s s' h)

/-- The stream-state component of processStreamEvents is the plain fold of
processStreamChunk — the emitters never touch it. -/
theorem processStreamEvents_state :
    ∀ (events : List RespEvent) (s : StreamState) (t r : EmitterState),
      (processStreamEvents events s t r).1
        = events.foldl (fun st ch => processStreamChunk ch st) s
  | [], s, t, r => rfl
  | ch :: rest, s, t, r => by
      simp only [processStreamEvents, List.foldl_cons]
      exact processStreamEvents_state rest _ _ _

/-- iterationToolCalls is the tool-call batch that iteration i of a
conversation produces: the toolCalls component of folding that iteration's
stream from a blank state (blank suffices because toolCalls are reset at
the start of every iteration and depend on nothing else). -/
def iterationToolCalls (cfg : ConversationConfig) (i : Nat) : List ToolCall :=
  ((cfg.streams i).foldl (fun st ch => processStreamChunk ch st)
    (initializeStreamState "" "" (Json.obj []))).toolCalls

/-- The toolCalls after processStream of iteration i equal
iterationToolCalls, whatever the carried-over state and emitters. -/
theorem processStream_toolCalls (cfg : ConversationConfig) (i : Nat)
    (prev : StreamState) (t r : EmitterState) :
    (processStream (cfg.streams i) prev t r).1.toolCalls = iterationToolCalls cfg i := by
  unfold processStream iterationToolCalls
  rw [processStreamEvents_state]
  exact foldChunks_toolCalls_congr (cfg.streams i) _ _ rfl

/-- buildMcpResults succeeds whenever every pending call has parseable
arguments. -/
theorem buildMcpResults_ok (parseJson : String → Option Json) (toolResults : List ToolResult) :
    ∀ (l : List ToolCall) (idx : Nat),
      (∀ tc ∈ l, (parseJson tc.function.arguments).isSome) →
      ∃ rs, buildMcpResults parseJson toolResults l idx = .ok rs
  | [], idx => fun _ => ⟨[], rfl⟩
  | tc :: rest, idx => fun h => by
      obtain ⟨j, hj⟩ := Option.isSome_iff_exists.mp (h tc (by simp))
      obtain ⟨tail, htail⟩ := buildMcpResults_ok parseJson toolResults rest (idx + 1)
        (fun x hx => h x (by simp [hx]))
      exact ⟨{ name := tc.function.name
               arguments := j
               result := parseToolResult parseJson
                 (((toolResults.get? idx).map ToolResult.content).getD "") } :: tail,
        by simp [buildMcpResults, hj, htail]⟩

/-- hasWorkflowMCP is false when every call names a data tool. -/
theorem hasWorkflowMCP_eq_false (l : List ToolCall)
    (h : ∀ tc ∈ l, tc.function.name ∈ DATA_TOOLS) : hasWorkflowMCP l = false := by
  unfold hasWorkflowMCP
  rw [List.any_eq_false]
  intro tc htc
  simp [h tc htc]

/-- handleToolCalls succeeds whenever every pending call has parseable
arguments, and its termination flag is exactly hasWorkflowMCP. -/
theorem handleToolCalls_ok (parseJson : String → Option Json) (s : StreamState)
    (svc : McpService)
    (hparse : ∀ tc ∈ s.toolCalls, (parseJson tc.function.arguments).isSome) :
    ∃ tr, handleToolCalls parseJson s svc = .ok tr ∧
      tr.shouldEndConversation = hasWorkflowMCP s.toolCalls := by
  obtain ⟨rs, hrs⟩ := buildMcpResults_ok parseJson
    (executeToolCallsInParallel parseJson svc s.toolCalls) s.toolCalls 0 hparse
  refine ⟨{ shouldEndConversation := hasWorkflowMCP s.toolCalls
            mcpResults := rs
            toolOutputs :=
              if hasWorkflowMCP s.toolCalls then []
              else ((executeToolCallsInParallel parseJson svc s.toolCalls).zip s.toolCalls).map
                (fun p => ResponseInputItem.functionCallOutput p.2.id p.1.content) },
    ?_, rfl⟩
  simp [handleToolCalls, hrs]

/-- When the registry is connected and every iteration in the remaining
window yields a non-empty batch of data-tool calls with parseable
arguments, the loop runs its remaining passes to exhaustion and returns
`.ok` with the counter advanced by exactly the remaining pass count. -/
theorem runLoopAux_exhausts (cfg : ConversationConfig) (svc : McpService)
    (hsvc : cfg.mcpService = some svc) :
    ∀ (remaining iteration : Nat) (s : StreamState) (tEm rEm : EmitterState)
      (items : List ResponseInputItem) (instr : String) (prid : Option String)
      (acc : List MCPResult),
      (∀ i, iteration < i → i ≤ iteration + remaining →
        iterationToolCalls cfg i ≠ [] ∧
        ∀ tc ∈ iterationToolCalls cfg i,
          tc.function.name ∈ DATA_TOOLS ∧ (cfg.parseJson tc.function.arguments).isSome) →
      ∃ res, runConversationLoopAux cfg remaining iteration s tEm rEm items instr prid acc
        = .ok (res, iteration + remaining)
  | 0, iteration, s, tEm, rEm, items, instr, prid, acc => fun _ =>
      ⟨mkConversationResult s acc, by simp [runConversationLoopAux]⟩
  | remaining + 1, iteration, s, tEm, rEm, items, instr, prid, acc => fun h => by
      have hcur := h (iteration + 1) (by omega) (by omega)
      have htc : (processStream (cfg.streams (iteration + 1)) s tEm rEm).1.toolCalls
          = iterationToolCalls cfg (iteration + 1) :=
        processStream_toolCalls cfg (iteration + 1) s tEm rEm
      have hne : ¬ ((processStream (cfg.streams (iteration + 1)) s tEm rEm).1.toolCalls.length = 0) := by
        rw [htc, List.length_eq_zero]
        exact hcur.1
      have hparse : ∀ tc ∈ (processStream (cfg.streams (iteration + 1)) s tEm rEm).1.toolCalls,
          (cfg.parseJson tc.function.arguments).isSome := by
        rw [htc]
        intro tc m
        exact (hcur.2 tc m).2
      obtain ⟨tr, htr, hend⟩ := handleToolCalls_ok cfg.parseJson
        (processStream (cfg.streams (iteration + 1)) s tEm rEm).1 svc hparse
      have hendF : tr.shouldEndConversation = false := by
        rw [hend, htc]
        exact hasWorkflowMCP_eq_false _ (fun tc m => (hcur.2 tc m).1)
      have hwindow : ∀ i, iteration + 1 < i → i ≤ iteration + 1 + remaining →
          iterationToolCalls cfg i ≠ [] ∧
          ∀ tc ∈ iterationToolCalls cfg i,
            tc.function.name ∈ DATA_TOOLS ∧ (cfg.parseJson tc.function.arguments).isSome :=
        fun i h1 h2 => h i (by omega) (by omega)
      obtain ⟨res, hres⟩ := runLoopAux_exhausts cfg svc hsvc remaining (iteration + 1)
        (processStream (cfg.streams (iteration + 1)) s tEm rEm).1
        (processStream (cfg.streams (iteration + 1)) s tEm rEm).2.1
        (processStream (cfg.streams (iteration + 1)) s tEm rEm).2.2.1
        ((if (processStream (cfg.streams (iteration + 1)) s tEm rEm).1.iterationText ≠ "" then
            items ++ [ResponseInputItem.message "assistant"
              (processStream (cfg.streams (iteration + 1)) s tEm rEm).1.iterationText]
          else items) ++ tr.toolOutputs)
        instr
        (processStream (cfg.streams (iteration + 1)) s tEm rEm).1.responseId
        (acc ++ tr.mcpResults) hwindow
      refine ⟨res, ?_⟩
      have harith : iteration + 1 + remaining = iteration + (remaining + 1) := by omega
      simp only [runConversationLoopAux]
      rw [if_neg hne, hsvc]
      simp only [htr]
      rw [hendF]
      simp only [Bool.false_eq_true, if_false]
      rw [← harith]
      exact hres

/-- C4: with maximum iterations M (`maxIterations || 10`), a connected
registry, and every iteration up to M producing at least one tool call all
of whose tools are non-terminal (data tools) with parseable arguments, the
conversation loop executes exactly M iterations (hence at most M) and then
returns the partial ConversationResult — fullText, reasoning, usage,
finishReason, toolCalls — to the caller as `.ok`, without throwing. -/
theorem C4_max_iterations_partial_return (cfg : ConversationConfig) (svc : McpService)
    (M : Nat) (hM : effectiveMaxIterations cfg.maxIterations = M)
    (hsvc : cfg.mcpService = some svc)
    (hiters : ∀ i, 1 ≤ i → i ≤ M →
      iterationToolCalls cfg i ≠ [] ∧
      ∀ tc ∈ iterationToolCalls cfg i,
        tc.function.name ∈ DATA_TOOLS ∧ (cfg.parseJson tc.function.arguments).isSome) :
    ∃ res, runConversationLoop cfg = .ok (res, M) := by
  unfold runConversationLoop
  rw [hM]
  obtain ⟨res, hres⟩ := runLoopAux_exhausts cfg svc hsvc M 0
    (initializeStreamState "" "" (Json.obj [])) ⟨0⟩ ⟨0⟩ [] "" none []
    (fun i h1 h2 => hiters i (by omega) (by omega))
  exact ⟨res, by simpa using hres⟩

/-- C4call is the data-tool call each witness iteration produces. -/
def C4call : ToolCall :=
  { id := "call_1", itemId := "item_1", type := "function"
    function := { name := "searchKnowledgeBase", arguments := "" } }

/-- C4cfg requests the same non-terminal data-tool call on every
iteration, with the default maximum of 10 iterations. -/
def C4cfg : ConversationConfig :=
  { streams := fun _ =>
      [RespEvent.outputItemAdded (some
        { type := "function_call", id := "item_1", call_id := "call_1"
          name := "searchKnowledgeBase" })]
    mcpService := some testSvc
    parseJson := parseJsonStub
    maxIterations := none }

/-- Witness for C4: every iteration requests a data tool, so the loop
would continue forever; it stops at the default maximum of 10 iterations
with an ok result. -/
theorem C4_max_iterations_partial_return_witness :
    effectiveMaxIterations C4cfg.maxIterations = 10 ∧
    C4cfg.mcpService = some testSvc ∧
    (∀ i, 1 ≤ i → i ≤ 10 →
      iterationToolCalls C4cfg i ≠ [] ∧
      ∀ tc ∈ iterationToolCalls C4cfg i,
        tc.function.name ∈ DATA_TOOLS ∧ (C4cfg.parseJson tc.function.arguments).isSome) ∧
    ∃ res, runConversationLoop C4cfg = .ok (res, 10) := by
  have hiters : ∀ i, 1 ≤ i → i ≤ 10 →
      iterationToolCalls C4cfg i ≠ [] ∧
      ∀ tc ∈ iterationToolCalls C4cfg i,
        tc.function.name ∈ DATA_TOOLS ∧ (C4cfg.parseJson tc.function.arguments).isSome := by
    intro i h1 h2
    have he : iterationToolCalls C4cfg i = [C4call] := rfl
    rw [he]
    refine ⟨by simp, ?_⟩
    intro tc htc
    rw [List.mem_singleton] at htc
    subst htc
    exact ⟨by decide, by decide⟩
  exact ⟨rfl, rfl, hiters,
    C4_max_iterations_partial_return C4cfg testSvc 10 rfl rfl hiters⟩
